import Mathlib

/-!
Verification development for the babelgen DSL (src/index.ts).

The TypeScript source builds expression/type node values, renders them either
as formatted source text (the `toString` methods, called the pretty-printer)
or as nodes of the external Babel AST vocabulary (the `toBabelAST` methods,
called the tree-serializer), and drives generator blocks through a
yield/completion protocol (the `Symbol.iterator` methods).

Embedding conventions:
* JavaScript numbers are modelled as `Int` (all values appearing in the
  repository and in the claims are integers, on which JS `toString` and
  `JSON.stringify` agree with the decimal notation of `Int`).
* A generator block is deterministic and driven exactly once per render, so a
  block is embedded as the trace it produces: the list of yielded values,
  plus (for function bodies) the optional completion value.
* Plain (non-node) JavaScript values — the `Primitive` union of the source —
  are the `Prim` type below; plain records are restricted to primitive
  entries, which covers every record the repository constructs.
* Fallible conversions (`toBabelAST` paths that `throw new Error(msg)`)
  return `Except String`, carrying the thrown message.
* The external parser `require("@babel/parser").parse` is not part of the
  repository; it is a parameter `parse : String → Option (List BNode)`
  of the tree-serializer, where `none` models a parse exception and
  `some l` a parsed program whose body is `l`.
-/

/-- The non-node JavaScript values (`Primitive` in src/index.ts:
number | string | boolean | symbol | Record<string, any>), with plain
records restricted to primitive entries and a host function value added
(the unsupported shape exercised by the spec). -/
inductive Prim where
  | num (n : Int)
  | str (s : String)
  | bool (b : Bool)
  | symbol
  | fnVal
  | obj (fields : List (String × Prim))

/-- JavaScript `typeof` on a `Prim`. -/
def typeofPrim : Prim → String
  | .num _ => "number"
  | .str _ => "string"
  | .bool _ => "boolean"
  | .symbol => "symbol"
  | .fnVal => "function"
  | .obj _ => "object"

/-- JSON string quoting, as `JSON.stringify` performs on strings. -/
def jsonQuote (s : String) : String :=
  "\"" ++ String.join (s.data.map (fun c =>
    if c = '"' then "\\\""
    else if c = '\\' then "\\\\"
    else if c = '\n' then "\\n"
    else if c = '\t' then "\\t"
    else if c = '\r' then "\\r"
    else String.singleton c)) ++ "\""

mutual

/-- `JSON.stringify` on a plain value: `none` models the JavaScript
`undefined` result (for function and symbol values). -/
def jsonStr : Prim → Option String
  | .num n => some (toString n)
  | .str s => some (jsonQuote s)
  | .bool b => some (cond b "true" "false")
  | .symbol => none
  | .fnVal => none
  | .obj fs => some ("\x7b" ++ String.intercalate "," (jsonFields fs) ++ "\x7d")

/-- Entries of `JSON.stringify` of an object: entries whose value
stringifies to `undefined` are omitted, insertion order is kept. -/
def jsonFields : List (String × Prim) → List String
  | [] => []
  | (k, v) :: rest =>
    match jsonStr v with
    | some s => (jsonQuote k ++ ":" ++ s) :: jsonFields rest
    | none => jsonFields rest

end

/-- `JSON.stringify` result as it appears after string concatenation or
template interpolation: the `undefined` result displays as "undefined". -/
def jsonDisplay (p : Prim) : String :=
  (jsonStr p).getD "undefined"

/-- JavaScript `String(value)` on a `Prim` (used by `ForExpr.toString` for
the iterable).  Function and symbol values never reach this coercion in the
repository (functions would display their source text, symbols throw); they
are given placeholder renderings here. -/
def primString : Prim → String
  | .num n => toString n
  | .str s => s
  | .bool b => cond b "true" "false"
  | .symbol => "Symbol()"
  | .fnVal => "function"
  | .obj _ => "[object Object]"

mutual

/-- The type-node model (`BaseType` and its subclasses in src/index.ts). -/
inductive BaseType where
  | primitive (name : String)
  | tvar (name : String)
  | generic (name : String) (args : List BaseType)
  | objectT (props : List (String × TyProp))
  | arrayT (elementType : BaseType)
  | functionT (params : List BaseType) (returnType : BaseType)
  | union (types : List BaseType)
  | intersection (types : List BaseType)

/-- An `ObjectType` property value: a type node, or any other value
(rendered through `JSON.stringify` by the source). -/
inductive TyProp where
  | ofTy (t : BaseType)
  | ofJson (j : Prim)

end

mutual

/-- `BaseType.toString` of src/index.ts, variant by variant. -/
def BaseType.render : BaseType → String
  | .primitive name => name
  | .tvar name => name
  | .generic name args =>
    match args with
    | [] => name
    | _ => name ++ "<" ++ String.intercalate ", " (renderTyList args) ++ ">"
  | .objectT props => "\x7b " ++ String.intercalate "; " (renderTyProps props) ++ " \x7d"
  | .arrayT elementType => elementType.render ++ "[]"
  | .functionT params returnType =>
    "(" ++ String.intercalate ", " (renderTyList params) ++ ") => " ++ returnType.render
  | .union types => String.intercalate " | " (renderTyList types)
  | .intersection types => String.intercalate " & " (renderTyList types)

def renderTyList : List BaseType → List String
  | [] => []
  | t :: ts => t.render :: renderTyList ts

/-- `ObjectType.toString` entries: `key: render` for type nodes,
`key: JSON.stringify(value)` otherwise. -/
def renderTyProps : List (String × TyProp) → List String
  | [] => []
  | (k, .ofTy t) :: rest => (k ++ ": " ++ t.render) :: renderTyProps rest
  | (k, .ofJson j) :: rest => (k ++ ": " ++ jsonDisplay j) :: renderTyProps rest

end

/-- The optional `: <type>` suffix used throughout the pretty-printer. -/
def tyAnn : Option BaseType → String
  | some t => ": " ++ t.render
  | none => ""

/-- The three modes of `ForExpr` (`"for-of" | "for-in" | "for"`). -/
inductive ForKind where
  | forOf
  | forIn
  | forC

/-- The expression/statement node model (`BaseExpr` subclasses of
src/index.ts) together with the plain values (`prim`) that may stand where
the source accepts a `ValueExpr`.  Generator-valued fields are embedded as
their traces; `functionE` keeps the trace of yields and the completion
value separately, mirroring the value/result split of the protocol. -/
inductive Val where
  | varRef (name : String) (type? : Option BaseType)
  | numberE (value : Int) (type? : Option BaseType)
  | stringE (value : String) (type? : Option BaseType)
  | boolE (value : Bool) (type? : Option BaseType)
  | letE (name : String) (value : Val) (type? : Option BaseType)
  | ifE (condition : Val) (thenBranch : List Val) (elseBranch : List Val)
  | forE (init? : Option Val) (var : String) (iterable : Val) (body : List Val) (kind : ForKind)
  | whileE (condition : Val) (body : List Val)
  | objectE (properties : List (String × Val)) (type? : Option BaseType)
  | arrayE (elements : List Val) (type? : Option BaseType)
  | functionE (params : List (String × Option BaseType)) (bodyYields : List Val)
      (bodyReturn : Option Val) (returnType? : Option BaseType) (typeParams : List String)
  | typeAliasE (name : String) (ty : BaseType) (typeParams : List String)
  | interfaceE (name : String) (properties : List (String × BaseType)) (typeParams : List String)
  | callE (functionRef : Val) (args : List Val)
  | methodCallE (object : Val) (method : String) (args : List Val)
  | rawE (code : String)
  | numBinOpE (left : Val) (op : String) (right : Val)
  | logBinOpE (left : Val) (op : String) (right : Val)
  | unaryOpE (op : String) (operand : Val) (pre : Bool)
  | propAccessE (object : Val) (property : String) (computed : Bool)
  | templateE (parts : List String) (expressions : List Val)
  | blockE (stmts : List Val)
  | prim (p : Prim)

/-- `value instanceof BaseExpr`: everything except a plain value. -/
def isExprNode : Val → Bool
  | .prim _ => false
  | _ => true

/-- The `TAB` indentation unit of src/index.ts. -/
def TAB : String := "  "

/-- The `<T, ...>` type-parameter prefix used by function, type-alias and
interface rendering (empty list renders as nothing). -/
def typeParamsStr : List String → String
  | [] => ""
  | tps => "<" ++ String.intercalate ", " tps ++ ">"

/-- Re-indents every line of a multi-line child render, as
`BlockExpr.toString` does after splitting on newlines. -/
def splitLines (ind : String) (lines : List String) : String :=
  String.join (lines.map (fun l => ind ++ TAB ++ l ++ "\n"))

set_option maxHeartbeats 3200000 in
mutual

/-- The pretty-printer: the `toString` methods of every `BaseExpr` subclass
in src/index.ts, with the indentation parameter threaded exactly as the
source does (classes whose `toString` takes no indent ignore it).
Call sites written `x instanceof BaseExpr ? x.toString() : JSON.stringify(x)`
become `renderVal "" x`, whose `prim` arm is that `JSON.stringify`
fallback. -/
def renderVal : String → Val → String
  | _, .varRef name _ => name
  | _, .numberE v t? => toString v ++ tyAnn t?
  | _, .stringE s t? => jsonQuote s ++ tyAnn t?
  | _, .boolE b t? => (cond b "true" "false") ++ tyAnn t?
  | _, .letE name v t? => "let " ++ name ++ tyAnn t? ++ " = " ++ renderVal "" v ++ ";"
  | ind, .ifE c tB eB =>
    "if (" ++ renderVal "" c ++ ") " ++
      ("\x7b\n" ++ blockEntries ind tB ++ ind ++ "\x7d") ++ " else " ++
      ("\x7b\n" ++ blockEntries ind eB ++ ind ++ "\x7d")
  | ind, .forE init? v iterable body kind =>
    (match kind with
     | .forOf =>
       "for (const " ++ v ++ " of " ++
         (match iterable with
          | .prim p => primString p
          | e => renderVal "" e) ++ ") "
     | .forIn =>
       "for (const " ++ v ++ " in " ++
         (match iterable with
          | .prim p => primString p
          | e => renderVal "" e) ++ ") "
     | .forC =>
       "for (" ++
         (match init? with
          | none => "undefined"
          | some i => renderVal "" i) ++ "; " ++ v ++ "; " ++ renderVal "" iterable ++ ") ")
    ++ "\x7b\n" ++ loopEntries ind body ++ ind ++ "\x7d"
  | ind, .whileE c body =>
    "while (" ++ renderVal "" c ++ ") \x7b\n" ++ loopEntries ind body ++ ind ++ "\x7d"
  | _, .objectE props t? =>
    "\x7b " ++ String.intercalate ", " (objEntries props) ++ " \x7d" ++ tyAnn t?
  | _, .arrayE elems t? =>
    "[ " ++ String.intercalate ", " (renderCommaList elems) ++ " ]" ++ tyAnn t?
  | _, .functionE params ys ret retTy tps =>
    typeParamsStr tps ++ "(" ++
      String.intercalate ", "
        (params.map (fun pr =>
          match pr.2 with
          | some t => pr.1 ++ ": " ++ t.render
          | none => pr.1)) ++ ")" ++ tyAnn retTy ++ " => " ++
      ("\x7b\n" ++ fnEntries ys ++
        (match ret with
         | some r => TAB ++ "return " ++ renderVal "" r ++ ";\n"
         | none => "") ++ "\x7d")
  | _, .typeAliasE n ty tps => "type " ++ n ++ typeParamsStr tps ++ " = " ++ ty.render ++ ";\n"
  | _, .interfaceE n props tps =>
    "interface " ++ n ++ typeParamsStr tps ++ " \x7b\n" ++
      String.intercalate "\n" (props.map (fun pr => "  " ++ pr.1 ++ ": " ++ pr.2.render ++ ";")) ++
      "\n\x7d\n"
  | _, .callE f args =>
    (match f with
     | .prim (.str s) => s
     | .prim p => jsonDisplay p
     | e => renderVal "" e) ++ "(" ++ String.intercalate ", " (renderCommaList args) ++ ")"
  | _, .methodCallE o m args =>
    (match o with
     | .prim (.str s) => s
     | .prim p => jsonDisplay p
     | e => renderVal "" e) ++ "." ++ m ++ "(" ++
      String.intercalate ", " (renderCommaList args) ++ ")"
  | _, .rawE code => code
  | _, .numBinOpE l op r => renderVal "" l ++ " " ++ op ++ " " ++ renderVal "" r
  | _, .logBinOpE l op r => renderVal "" l ++ " " ++ op ++ " " ++ renderVal "" r
  | _, .unaryOpE op v pre =>
    if pre then op ++ renderVal "" v else renderVal "" v ++ op
  | _, .propAccessE o p computed =>
    if computed then renderVal "" o ++ "[" ++ jsonQuote p ++ "]"
    else renderVal "" o ++ "." ++ p
  | _, .templateE parts exprs => "`" ++ templateBody parts exprs ++ "`"
  | ind, .blockE stmts => "\x7b\n" ++ blockEntries ind stmts ++ ind ++ "\x7d"
  | _, .prim p => jsonDisplay p
termination_by _ v => 2 * sizeOf v
decreasing_by all_goals (simp_wf <;> omega)

/-- The per-value lines of `BlockExpr.toString`: nested if/for/while recurse
with increased indent, other nodes are rendered flat and re-indented
line by line, plain values fall back to `JSON.stringify`. -/
def blockEntries : String → List Val → String
  | _, [] => ""
  | ind, .ifE c t e :: rest =>
    ind ++ TAB ++ renderVal (ind ++ TAB) (.ifE c t e) ++ "\n" ++ blockEntries ind rest
  | ind, .forE i v it b k :: rest =>
    ind ++ TAB ++ renderVal (ind ++ TAB) (.forE i v it b k) ++ "\n" ++ blockEntries ind rest
  | ind, .whileE c b :: rest =>
    ind ++ TAB ++ renderVal (ind ++ TAB) (.whileE c b) ++ "\n" ++ blockEntries ind rest
  | ind, .prim p :: rest => ind ++ TAB ++ jsonDisplay p ++ "\n" ++ blockEntries ind rest
  | ind, e :: rest =>
    splitLines ind ((renderVal "" e).splitOn "\n") ++ blockEntries ind rest
termination_by _ l => 2 * sizeOf l
decreasing_by all_goals (simp_wf <;> omega)

/-- The per-value lines of `ForExpr.toString`/`WhileExpr.toString` loop
bodies: like block entries but without the line-by-line re-indentation of
multi-line child renders. -/
def loopEntries : String → List Val → String
  | _, [] => ""
  | ind, .ifE c t e :: rest =>
    ind ++ TAB ++ renderVal (ind ++ TAB) (.ifE c t e) ++ "\n" ++ loopEntries ind rest
  | ind, .forE i v it b k :: rest =>
    ind ++ TAB ++ renderVal (ind ++ TAB) (.forE i v it b k) ++ "\n" ++ loopEntries ind rest
  | ind, .whileE c b :: rest =>
    ind ++ TAB ++ renderVal (ind ++ TAB) (.whileE c b) ++ "\n" ++ loopEntries ind rest
  | ind, .prim p :: rest => ind ++ TAB ++ jsonDisplay p ++ "\n" ++ loopEntries ind rest
  | ind, e :: rest => ind ++ TAB ++ renderVal "" e ++ "\n" ++ loopEntries ind rest
termination_by _ l => 2 * sizeOf l
decreasing_by all_goals (simp_wf <;> omega)

/-- The body lines of `FunctionExpr.toString`: only `IfExpr` children get
the increased indent (the source special-cases just that class here). -/
def fnEntries : List Val → String
  | [] => ""
  | .ifE c t e :: rest => TAB ++ renderVal TAB (.ifE c t e) ++ "\n" ++ fnEntries rest
  | .prim p :: rest => TAB ++ jsonDisplay p ++ "\n" ++ fnEntries rest
  | e :: rest => TAB ++ renderVal "" e ++ "\n" ++ fnEntries rest
termination_by l => 2 * sizeOf l
decreasing_by all_goals (simp_wf <;> omega)

/-- `TemplateLiteralExpr.toString` interior: parts interleaved with
interpolated expression renders; once the expressions run out the
remaining parts are emitted plainly, and surplus expressions beyond the
parts are dropped. -/
def templateBody : List String → List Val → String
  | ps, [] => String.join ps
  | [], _ :: _ => ""
  | p :: ps, e :: es => p ++ "$\x7b" ++ renderVal "" e ++ "\x7d" ++ templateBody ps es
termination_by _ es => 2 * sizeOf es
decreasing_by all_goals (simp_wf <;> omega)

/-- Comma-list of child renders (array elements, call arguments). -/
def renderCommaList : List Val → List String
  | [] => []
  | v :: vs => renderVal "" v :: renderCommaList vs
termination_by l => 2 * sizeOf l
decreasing_by all_goals (simp_wf <;> omega)

/-- `ObjectExpr.toString` entries. -/
def objEntries : List (String × Val) → List String
  | [] => []
  | (k, v) :: rest => (k ++ ": " ++ renderVal "" v) :: objEntries rest
termination_by l => 2 * sizeOf l
decreasing_by all_goals (simp_wf <;> omega)

end

/-- `BlockExpr.toString` as a standalone function: open brace, one entry
per produced value, closing brace at the parent indentation (this is the
inlined shape of the `ifE`/`blockE` arms of `renderVal`, factored for
statements of theorems). -/
def renderBlockStr (ind : String) (stmts : List Val) : String :=
  "\x7b\n" ++ blockEntries ind stmts ++ ind ++ "\x7d"

/-- The external Babel AST vocabulary, restricted to the node kinds the
repository constructs (plus `program`, built by `CodeGenAST`). -/
inductive BNode where
  | identifier (name : String)
  | numericLiteral (n : Int)
  | stringLiteral (s : String)
  | booleanLiteral (b : Bool)
  | objectExpression (props : List (String × BNode))
  | arrayExpression (elems : List BNode)
  | binaryExpression (op : String) (left right : BNode)
  | logicalExpression (op : String) (left right : BNode)
  | unaryExpression (op : String) (argument : BNode) (pre : Bool)
  | updateExpression (op : String) (argument : BNode) (pre : Bool)
  | memberExpression (object property : BNode) (computed : Bool)
  | callExpression (callee : BNode) (args : List BNode)
  | templateLiteral (quasis : List String) (exprs : List BNode)
  | arrowFunctionExpression (params : List String) (body : BNode)
  | expressionStatement (e : BNode)
  | blockStatement (stmts : List BNode)
  | returnStatement (argument : BNode)
  | variableDeclaration (kind : String) (declarators : List (String × Option BNode))
  | ifStatement (test consequent alternate : BNode)
  | forOfStatement (left right body : BNode)
  | forInStatement (left right body : BNode)
  | forStatement (init : Option BNode) (test update body : BNode)
  | whileStatement (test body : BNode)
  | tsTypeAliasDeclaration (name : String) (typeParams : List String) (ty : BNode)
  | tsInterfaceDeclaration (name : String) (typeParams : List String)
      (props : List (String × BNode))
  | tsKeyword (name : String)
  | tsTypeReference (name : String)
  | program (body : List BNode)

/-- The external backend's `t.isExpression` predicate on the node kinds in
use (Babel classifies identifiers, literals and the expression wrappers as
expressions; statements, declarations, TS type nodes and programs are
not). -/
def isExpression : BNode → Bool
  | .identifier _ => true
  | .numericLiteral _ => true
  | .stringLiteral _ => true
  | .booleanLiteral _ => true
  | .objectExpression _ => true
  | .arrayExpression _ => true
  | .binaryExpression .. => true
  | .logicalExpression .. => true
  | .unaryExpression .. => true
  | .updateExpression .. => true
  | .memberExpression .. => true
  | .callExpression .. => true
  | .templateLiteral .. => true
  | .arrowFunctionExpression .. => true
  | _ => false

/-- The external backend's `t.isStatement` predicate on the node kinds in
use (expression statements, blocks, returns, declarations, control-flow
statements and the TS declarations are statements). -/
def isStatement : BNode → Bool
  | .expressionStatement _ => true
  | .blockStatement _ => true
  | .returnStatement _ => true
  | .variableDeclaration .. => true
  | .ifStatement .. => true
  | .forOfStatement .. => true
  | .forInStatement .. => true
  | .forStatement .. => true
  | .whileStatement .. => true
  | .tsTypeAliasDeclaration .. => true
  | .tsInterfaceDeclaration .. => true
  | _ => false

/-- `convertTypeToTSType` (duplicated in `TypeAliasExpr`/`InterfaceExpr`):
primitive names map to the TS keywords, unknown primitive names to a type
reference, every other type variant collapses to the `any` keyword. -/
def convertTypeToTSType : BaseType → BNode
  | .primitive name =>
    if name = "string" then .tsKeyword "string"
    else if name = "number" then .tsKeyword "number"
    else if name = "boolean" then .tsKeyword "boolean"
    else if name = "any" then .tsKeyword "any"
    else .tsTypeReference name
  | _ => .tsKeyword "any"

/-- The literal arm shared by every per-class `convertValueToBabel` helper:
string/number/boolean plain values become literal nodes, anything else
throws `msg` followed by the `typeof` string.  Each class supplies its own
message. -/
def primLit (msg : String) : Prim → Except String BNode
  | .num n => .ok (.numericLiteral n)
  | .str s => .ok (.stringLiteral s)
  | .bool b => .ok (.booleanLiteral b)
  | q => .error (msg ++ typeofPrim q)

mutual

/-- `LetExpr.convertValueToBabel` restricted to plain values: literal
conversions, recursive plain-object conversion (`LetExpr.objectToBabel`),
and the thrown unsupported-value error for the remaining shapes. -/
def primConvertLet : Prim → Except String BNode
  | .num n => .ok (.numericLiteral n)
  | .str s => .ok (.stringLiteral s)
  | .bool b => .ok (.booleanLiteral b)
  | .obj fs => do
    let entries ← primObjFields fs
    .ok (.objectExpression entries)
  | q => .error ("Unsupported value type: " ++ typeofPrim q)

/-- `LetExpr.objectToBabel` entries, in insertion order. -/
def primObjFields : List (String × Prim) → Except String (List (String × BNode))
  | [] => .ok []
  | (k, v) :: rest => do
    let n ← primConvertLet v
    let r ← primObjFields rest
    .ok ((k, n) :: r)

end

mutual

/-- The tree-serializer: the `toBabelAST` methods of src/index.ts.
`parse` stands for the external `@babel/parser` (`none` = the parser threw;
`some l` = a parsed program with body `l`); it is consulted only by the
raw-node arm.  Errors carry the thrown `Error` message.  The per-class
`convertValueToBabel` helpers appear inline at their call sites: node
children recurse, plain values go through `primLit` with the class's
message (or `primConvertLet` for declarations, which alone supports plain
objects).  The `prim` arm models the host-level TypeError of invoking a
method on a non-node value; every guarded call site
(`instanceof BaseExpr`) avoids it. -/
def toBabelAST (parse : String → Option (List BNode)) : Val → Except String BNode
  | .varRef n _ => .ok (.identifier n)
  | .numberE v _ => .ok (.numericLiteral v)
  | .stringE s _ => .ok (.stringLiteral s)
  | .boolE b _ => .ok (.booleanLiteral b)
  | .letE n v _ => do
    let e ← match v with
      | .prim q => primConvertLet q
      | v => toBabelAST parse v
    .ok (.variableDeclaration "const" [(n, some e)])
  | .ifE c tB eB => do
    let test ← match c with
      | .prim q => primLit "Unsupported condition type: " q
      | c => toBabelAST parse c
    let tb ← blockStmtsB parse tB
    let eb ← blockStmtsB parse eB
    .ok (.ifStatement test (.blockStatement tb) (.blockStatement eb))
  | .forE init? v iterable body kind =>
    match kind with
    | .forOf => do
      let right ← match iterable with
        | .prim q => primLit "Unsupported value type: " q
        | it => toBabelAST parse it
      let stmts ← stmtsStmtFirst parse body
      .ok (.forOfStatement (.variableDeclaration "const" [(v, none)]) right
        (.blockStatement stmts))
    | .forIn => do
      let right ← match iterable with
        | .prim q => primLit "Unsupported value type: " q
        | it => toBabelAST parse it
      let stmts ← stmtsStmtFirst parse body
      .ok (.forInStatement (.variableDeclaration "const" [(v, none)]) right
        (.blockStatement stmts))
    | .forC => do
      let init ← match init? with
        | none => pure (none : Option BNode)
        | some (.prim q) => do
          let n ← primLit "Unsupported value type: " q
          pure (some n)
        | some i => do
          let n ← toBabelAST parse i
          pure (some n)
      let update ← match iterable with
        | .prim q => primLit "Unsupported value type: " q
        | it => toBabelAST parse it
      let stmts ← stmtsStmtFirst parse body
      .ok (.forStatement init (.identifier v) update (.blockStatement stmts))
  | .whileE c body => do
    let test ← match c with
      | .prim q => primLit "Unsupported condition type: " q
      | c => toBabelAST parse c
    let stmts ← stmtsStmtFirst parse body
    .ok (.whileStatement test (.blockStatement stmts))
  | .objectE props _ => do
    let entries ← objFieldsB parse props
    .ok (.objectExpression entries)
  | .arrayE elems _ => do
    let ns ← listConvert "Unsupported element type: " parse elems
    .ok (.arrayExpression ns)
  | .functionE params ys ret _ _ => do
    let stmts ← stmtsStmtFirst parse ys
    let retStmts ← match ret with
      | some (.prim q) => do
        let e ← primLit "Unsupported value type: " q
        pure [BNode.returnStatement e]
      | some r => do
        let e ← toBabelAST parse r
        pure [BNode.returnStatement e]
      | none => pure ([] : List BNode)
    .ok (.arrowFunctionExpression (params.map Prod.fst) (.blockStatement (stmts ++ retStmts)))
  | .typeAliasE n ty tps => .ok (.tsTypeAliasDeclaration n tps (convertTypeToTSType ty))
  | .interfaceE n props tps =>
    .ok (.tsInterfaceDeclaration n tps (props.map (fun pr => (pr.1, convertTypeToTSType pr.2))))
  | .callE f args => do
    let callee ← match f with
      | .prim q => primLit "Unsupported value type: " q
      | f => toBabelAST parse f
    let as ← listConvert "Unsupported value type: " parse args
    .ok (.callExpression callee as)
  | .methodCallE o m args => do
    let objN ← match o with
      | .prim q => primLit "Unsupported value type: " q
      | o => toBabelAST parse o
    let as ← listConvert "Unsupported value type: " parse args
    .ok (.callExpression (.memberExpression objN (.identifier m) false) as)
  | .rawE code =>
    match parse code with
    | some (s :: _) => .ok s
    | _ => .ok (.expressionStatement (.stringLiteral code))
  | .numBinOpE l op r => do
    let ln ← match l with
      | .prim (.num n) => Except.ok (BNode.numericLiteral n)
      | .prim q => Except.error ("Unsupported numeric operand: " ++ typeofPrim q)
      | l => toBabelAST parse l
    let rn ← match r with
      | .prim (.num n) => Except.ok (BNode.numericLiteral n)
      | .prim q => Except.error ("Unsupported numeric operand: " ++ typeofPrim q)
      | r => toBabelAST parse r
    .ok (.binaryExpression op ln rn)
  | .logBinOpE l op r => do
    let ln ← match l with
      | .prim (.bool b) => Except.ok (BNode.booleanLiteral b)
      | .prim q => Except.error ("Unsupported boolean operand: " ++ typeofPrim q)
      | l => toBabelAST parse l
    let rn ← match r with
      | .prim (.bool b) => Except.ok (BNode.booleanLiteral b)
      | .prim q => Except.error ("Unsupported boolean operand: " ++ typeofPrim q)
      | r => toBabelAST parse r
    .ok (.logicalExpression op ln rn)
  | .unaryOpE op v pre => do
    let arg ← match v with
      | .prim q => primLit "Unsupported operand type: " q
      | v => toBabelAST parse v
    if op = "++" ∨ op = "--" then .ok (.updateExpression op arg pre)
    else .ok (.unaryExpression op arg pre)
  | .propAccessE o prop computed => do
    let objN ← toBabelAST parse o
    if computed then .ok (.memberExpression objN (.stringLiteral prop) true)
    else .ok (.memberExpression objN (.identifier prop) false)
  | .templateE parts exprs => do
    let es ← listConvert "Unsupported template expression: " parse exprs
    .ok (.templateLiteral parts es)
  | .blockE stmts => do
    let ss ← blockStmtsB parse stmts
    .ok (.blockStatement ss)
  | .prim q => .error ("TypeError: " ++ typeofPrim q ++ " is not an expression node")
termination_by v => 2 * sizeOf v
decreasing_by all_goals (simp_wf <;> omega)

/-- `BlockExpr.toBabelAST` statement collection: non-node values are
skipped silently; expressions are wrapped in expression statements
(`t.isExpression` checked first in this class). -/
def blockStmtsB (parse : String → Option (List BNode)) : List Val → Except String (List BNode)
  | [] => .ok []
  | e :: rest =>
    if isExprNode e then do
      let n ← toBabelAST parse e
      let r ← blockStmtsB parse rest
      .ok ((if isExpression n then [.expressionStatement n]
            else if isStatement n then [n] else []) ++ r)
    else blockStmtsB parse rest
termination_by l => 2 * sizeOf l
decreasing_by all_goals (simp_wf <;> omega)

/-- Statement collection of `ForExpr.generateLoopBody`,
`WhileExpr.toBabelAST`, `FunctionExpr.toBabelAST` and `CodeGenAST`:
identical to the block collection except that `t.isStatement` is checked
first. -/
def stmtsStmtFirst (parse : String → Option (List BNode)) : List Val → Except String (List BNode)
  | [] => .ok []
  | e :: rest =>
    if isExprNode e then do
      let n ← toBabelAST parse e
      let r ← stmtsStmtFirst parse rest
      .ok ((if isStatement n then [n]
            else if isExpression n then [.expressionStatement n] else []) ++ r)
    else stmtsStmtFirst parse rest
termination_by l => 2 * sizeOf l
decreasing_by all_goals (simp_wf <;> omega)

/-- `ObjectExpr.toBabelAST` entries (key order preserved); its
`convertValueToBabel` has no plain-object arm, so nested plain objects
throw. -/
def objFieldsB (parse : String → Option (List BNode)) : List (String × Val) → Except String (List (String × BNode))
  | [] => .ok []
  | (k, v) :: rest => do
    let n ← match v with
      | .prim q => primLit "Unsupported value type: " q
      | v => toBabelAST parse v
    let r ← objFieldsB parse rest
    .ok ((k, n) :: r)
termination_by l => 2 * sizeOf l
decreasing_by all_goals (simp_wf <;> omega)

/-- Conversion of a list of child values through the shared
`convertValueToBabel` shape (array elements, call arguments, template
expressions), with the per-class error message. -/
def listConvert (msg : String) (parse : String → Option (List BNode)) : List Val → Except String (List BNode)
  | [] => .ok []
  | v :: vs => do
    let n ← match v with
      | .prim q => primLit msg q
      | v => toBabelAST parse v
    let r ← listConvert msg parse vs
    .ok (n :: r)
termination_by l => 2 * sizeOf l
decreasing_by all_goals (simp_wf <;> omega)

end

/-- `FunctionExpr` return-value handling as a standalone function (the
inline match in the function arm of `toBabelAST`, factored for statements
of theorems): node completions serialize through `toBabelAST`, plain
completions through `FunctionExpr.convertValueToBabel`
(string/number/boolean only). -/
def returnArgB (parse : String → Option (List BNode)) : Val → Except String BNode
  | .prim q => primLit "Unsupported value type: " q
  | v => toBabelAST parse v

/-- `LetExpr.convertValueToBabel` as a standalone function (the inline
match in the declaration arm of `toBabelAST`, factored for statements of
theorems). -/
def letConvert (parse : String → Option (List BNode)) : Val → Except String BNode
  | .prim q => primConvertLet q
  | v => toBabelAST parse v

/-- `CodeGenAST(...).run()`: drives the writer trace, collects statements
(statement check first, expressions wrapped, non-node values skipped) into
a program node. -/
def codeGenAST (parse : String → Option (List BNode)) (trace : List Val) : Except String BNode := do
  let body ← stmtsStmtFirst parse trace
  .ok (.program body)

mutual

/-- Whether a value contains a raw/opaque-text node anywhere — the only
node kind whose tree-serialization consults the external parser. -/
def containsRaw : Val → Bool
  | .rawE _ => true
  | .varRef _ _ => false
  | .numberE _ _ => false
  | .stringE _ _ => false
  | .boolE _ _ => false
  | .letE _ v _ => containsRaw v
  | .ifE c tB eB => containsRaw c || containsRawList tB || containsRawList eB
  | .forE init? _ it b _ => containsRawOpt init? || containsRaw it || containsRawList b
  | .whileE c b => containsRaw c || containsRawList b
  | .objectE ps _ => containsRawFields ps
  | .arrayE es _ => containsRawList es
  | .functionE _ ys r _ _ => containsRawList ys || containsRawOpt r
  | .typeAliasE _ _ _ => false
  | .interfaceE _ _ _ => false
  | .callE f as => containsRaw f || containsRawList as
  | .methodCallE o _ as => containsRaw o || containsRawList as
  | .numBinOpE l _ r => containsRaw l || containsRaw r
  | .logBinOpE l _ r => containsRaw l || containsRaw r
  | .unaryOpE _ v _ => containsRaw v
  | .propAccessE o _ _ => containsRaw o
  | .templateE _ es => containsRawList es
  | .blockE ss => containsRawList ss
  | .prim _ => false
termination_by v => 2 * sizeOf v
decreasing_by all_goals (simp_wf <;> omega)

/-- `containsRaw` over an optional value (loop initializers, function
completion values). -/
def containsRawOpt : Option Val → Bool
  | some v => containsRaw v
  | none => false
termination_by o => 2 * sizeOf o
decreasing_by all_goals simp_wf

/-- `containsRaw` over a produced sequence. -/
def containsRawList : List Val → Bool
  | [] => false
  | v :: vs => containsRaw v || containsRawList vs
termination_by l => 2 * sizeOf l
decreasing_by all_goals (simp_wf <;> omega)

/-- `containsRaw` over object-literal entries. -/
def containsRawFields : List (String × Val) → Bool
  | [] => false
  | (_, v) :: rest => containsRaw v || containsRawFields rest
termination_by l => 2 * sizeOf l
decreasing_by all_goals (simp_wf <;> omega)

end

/-- The binding/iteration protocol: for each node class, the trace of its
`Symbol.iterator` generator as a pair (yielded values, completion value),
or `none` for the classes that define no `Symbol.iterator` at all
(`FunctionCallExpr`, `RawExpr`, `UnaryOpExpr`, `TemplateLiteralExpr`) and
for plain values.  A declaration completes with a fresh reference carrying
its name and declared type; numeric/logical binary ops complete with a
fresh reference named "result" typed number/boolean; a property access
yields nothing (its `yield this` is commented out in the source) and
completes with a reference named "hi" typed `any`; a number literal's
iterator returns the node itself without yielding it; every other
iterable class yields itself and completes with no value. -/
def iterProtocol : Val → Option (List Val × Option Val)
  | .varRef n t => some ([.varRef n t], none)
  | .numberE v t => some ([], some (.numberE v t))
  | .stringE s t => some ([.stringE s t], none)
  | .boolE b t => some ([.boolE b t], none)
  | .letE n v t => some ([.letE n v t], some (.varRef n t))
  | .ifE c tB eB => some ([.ifE c tB eB], none)
  | .forE i v it b k => some ([.forE i v it b k], none)
  | .whileE c b => some ([.whileE c b], none)
  | .objectE p t => some ([.objectE p t], none)
  | .arrayE e t => some ([.arrayE e t], none)
  | .functionE p ys r rt tp => some ([.functionE p ys r rt tp], none)
  | .typeAliasE n t tp => some ([.typeAliasE n t tp], none)
  | .interfaceE n p tp => some ([.interfaceE n p tp], none)
  | .methodCallE o m a => some ([.methodCallE o m a], none)
  | .numBinOpE l op r =>
    some ([.numBinOpE l op r], some (.varRef "result" (some (.primitive "number"))))
  | .logBinOpE l op r =>
    some ([.logBinOpE l op r], some (.varRef "result" (some (.primitive "boolean"))))
  | .propAccessE _ _ _ => some ([], some (.varRef "hi" (some (.primitive "any"))))
  | .blockE s => some ([.blockE s], none)
  | .callE _ _ => none
  | .rawE _ => none
  | .unaryOpE _ _ _ => none
  | .templateE _ _ => none
  | .prim _ => none

/-! ### Helper lemmas -/

set_option maxHeartbeats 2000000

/-- Reduction of the `Except` monad operations used by the serializer. -/
@[simp] theorem except_ok_bind {a : Type} {b : Type} (x : a)
    (f : a → Except String b) : (Except.ok x >>= f) = f x := rfl

/-- Error propagation of the `Except` monad used by the serializer. -/
@[simp] theorem except_error_bind {a : Type} {b : Type} (m : String)
    (f : a → Except String b) :
    ((Except.error m : Except String a) >>= f) = .error m := rfl

/-- `pure` of the `Except` monad is `Except.ok`. -/
@[simp] theorem except_pure_eq_ok {a : Type} (x : a) :
    (pure x : Except String a) = .ok x := rfl

/-- `renderTyList` is the list of member renders. -/
theorem renderTyList_eq_map (ts : List BaseType) :
    renderTyList ts = ts.map BaseType.render := by
  induction ts with
  | nil => rfl
  | cons t ts ih => simp [renderTyList, ih]

/-- The declaration arm of the serializer, through `letConvert`. -/
theorem letE_toBabel (parse : String → Option (List BNode)) (n : String)
    (v : Val) (t? : Option BaseType) :
    toBabelAST parse (.letE n v t?) = (do
      let e ← letConvert parse v
      Except.ok (.variableDeclaration "const" [(n, some e)])) := by
  cases v <;> simp [toBabelAST, letConvert]

/-- The function arm of the serializer with no completion value: no
return statement is appended. -/
theorem functionE_toBabel_none (parse : String → Option (List BNode))
    (params : List (String × Option BaseType)) (ys : List Val)
    (retTy : Option BaseType) (tps : List String) :
    toBabelAST parse (.functionE params ys none retTy tps) =
      (stmtsStmtFirst parse ys).map (fun ss =>
        .arrowFunctionExpression (params.map Prod.fst) (.blockStatement ss)) := by
  cases h : stmtsStmtFirst parse ys <;>
    simp [toBabelAST, h, Except.map]

/-- The function arm of the serializer with a completion value: the
converted completion is appended as a single trailing return statement. -/
theorem functionE_toBabel_some (parse : String → Option (List BNode))
    (params : List (String × Option BaseType)) (ys : List Val)
    (retTy : Option BaseType) (tps : List String) (r : Val) :
    toBabelAST parse (.functionE params ys (some r) retTy tps) = (do
      let ss ← stmtsStmtFirst parse ys
      let re ← returnArgB parse r
      Except.ok (.arrowFunctionExpression (params.map Prod.fst)
        (.blockStatement (ss ++ [.returnStatement re])))) := by
  cases r <;> simp only [toBabelAST, returnArgB, bind_assoc, pure_bind]

/-- Block serialization distributes over concatenation of the produced
sequence (statements keep production order). -/
theorem blockStmtsB_append (parse : String → Option (List BNode))
    (es1 es2 : List Val) :
    blockStmtsB parse (es1 ++ es2) = (do
      let a ← blockStmtsB parse es1
      let b ← blockStmtsB parse es2
      Except.ok (a ++ b)) := by
  induction es1 with
  | nil =>
    cases h : blockStmtsB parse es2 <;> simp [blockStmtsB, h]
  | cons e rest ih =>
    by_cases he : isExprNode e
    · cases hn : toBabelAST parse e
      · simp [blockStmtsB, he, hn]
      · cases hr : blockStmtsB parse rest <;> cases h2 : blockStmtsB parse es2 <;>
          simp [blockStmtsB, he, hn, hr, h2, ih, List.append_assoc]
    · simp [blockStmtsB, he, ih]

/-- Statement-first serialization (loops, function bodies, `CodeGenAST`)
distributes over concatenation of the produced sequence. -/
theorem stmtsStmtFirst_append (parse : String → Option (List BNode))
    (es1 es2 : List Val) :
    stmtsStmtFirst parse (es1 ++ es2) = (do
      let a ← stmtsStmtFirst parse es1
      let b ← stmtsStmtFirst parse es2
      Except.ok (a ++ b)) := by
  induction es1 with
  | nil =>
    cases h : stmtsStmtFirst parse es2 <;> simp [stmtsStmtFirst, h]
  | cons e rest ih =>
    by_cases he : isExprNode e
    · cases hn : toBabelAST parse e
      · simp [stmtsStmtFirst, he, hn]
      · cases hr : stmtsStmtFirst parse rest <;> cases h2 : stmtsStmtFirst parse es2 <;>
          simp [stmtsStmtFirst, he, hn, hr, h2, ih, List.append_assoc]
    · simp [stmtsStmtFirst, he, ih]

/-- Block pretty-printing lines distribute over concatenation of the
produced sequence (lines keep production order). -/
theorem blockEntries_append (ind : String) (es1 es2 : List Val) :
    blockEntries ind (es1 ++ es2) = blockEntries ind es1 ++ blockEntries ind es2 := by
  induction es1 with
  | nil => simp [blockEntries]
  | cons e rest ih => cases e <;> simp [blockEntries, ih, String.append_assoc]

/-- Serializing a raw-free value is independent of the external parser:
only the raw node kind's conversion consults it. -/
theorem toBabel_raw_free_oracle (p2 : String → Option (List BNode)) :
    ∀ (p1 : String → Option (List BNode)) (v : Val),
      containsRaw v = false → toBabelAST p1 v = toBabelAST p2 v := by
  intro p1 v
  apply toBabelAST.induct
    (fun parse v =>
      containsRaw v = false → toBabelAST parse v = toBabelAST p2 v)
    (fun msg parse l =>
      containsRawList l = false → listConvert msg parse l = listConvert msg p2 l)
    (fun parse fs =>
      containsRawFields fs = false → objFieldsB parse fs = objFieldsB p2 fs)
    (fun parse l =>
      containsRawList l = false → stmtsStmtFirst parse l = stmtsStmtFirst p2 l)
    (fun parse l =>
      containsRawList l = false → blockStmtsB parse l = blockStmtsB p2 l)
  all_goals intros
  all_goals try simp_all [toBabelAST, blockStmtsB, stmtsStmtFirst, objFieldsB, listConvert,
    containsRaw, containsRawOpt, containsRawList, containsRawFields]
  all_goals try (split <;> simp_all [toBabelAST, containsRaw, containsRawOpt])

/-! ### Claim theorems -/

/-- C1: consuming a declaration node through the protocol first yields the
node itself and completes with a fresh reference carrying the declared name
and declared type; the reference renders as the bare name, and a
subsequently built binary op `reference_a + 5` renders as "a + 5" (never
the initializer literal). -/
theorem c1_declaration_binding (name : String) (value : Val) (t? : Option BaseType) :
    iterProtocol (.letE name value t?) =
      some ([.letE name value t?], some (.varRef name t?)) ∧
    renderVal "" (Val.varRef name t?) = name ∧
    renderVal "" (Val.numBinOpE (.varRef "a" none) "+" (.prim (.num 5))) = "a + 5" := by
  refine ⟨rfl, ?_, ?_⟩
  · simp [renderVal]
  · simp [renderVal]
    rfl

/-- C2 counterexample: a concrete property-access node consumed through the
protocol yields nothing at all (the claimed "yields the node" is false: the
node is not among the yielded values), and its completion reference is
typed with the primitive type `any` (and named "hi") even though this
input's property type is statically known. -/
theorem c2_counterexample :
    iterProtocol (Val.propAccessE (.varRef "user" none) "age" false) =
      some ([], some (.varRef "hi" (some (.primitive "any")))) ∧
    (Val.propAccessE (.varRef "user" none) "age" false) ∉ ([] : List Val) := by
  exact ⟨rfl, by simp⟩

/-- C2 (amended): numeric and logical binary-op nodes yield the node and
complete with a fresh reference named "result" typed number respectively
boolean; a property-access node yields nothing and completes with a fresh
reference named "hi" typed with the unconstrained primitive type `any`,
regardless of the statically tracked property type. -/
theorem c2_op_completions (l r : Val) (op : String) (o : Val) (p : String) (c : Bool) :
    iterProtocol (.numBinOpE l op r) =
      some ([.numBinOpE l op r], some (.varRef "result" (some (.primitive "number")))) ∧
    iterProtocol (.logBinOpE l op r) =
      some ([.logBinOpE l op r], some (.varRef "result" (some (.primitive "boolean")))) ∧
    iterProtocol (.propAccessE o p c) =
      some ([], some (.varRef "hi" (some (.primitive "any")))) :=
  ⟨rfl, rfl, rfl⟩

/-- C3: rendering a function literal drives the body trace to exhaustion;
every produced value becomes one body statement in production order, the
completion value (when present) becomes one trailing return statement, and
no return statement is emitted without one.  Concretely, a body that
yields one declaration and completes with a reference to it prints the
`let` line followed by `return x;`, and prints no return line when the
completion is absent. -/
theorem c3_function_return (parse : String → Option (List BNode))
    (params : List (String × Option BaseType)) (ys : List Val)
    (retTy : Option BaseType) (tps : List String) :
    (toBabelAST parse (.functionE params ys none retTy tps) =
      (stmtsStmtFirst parse ys).map (fun ss =>
        .arrowFunctionExpression (params.map Prod.fst) (.blockStatement ss))) ∧
    (∀ r : Val, toBabelAST parse (.functionE params ys (some r) retTy tps) = (do
      let ss ← stmtsStmtFirst parse ys
      let re ← returnArgB parse r
      Except.ok (.arrowFunctionExpression (params.map Prod.fst)
        (.blockStatement (ss ++ [.returnStatement re]))))) ∧
    renderVal "" (.functionE [] [.letE "x" (.prim (.num 1)) none]
        (some (.varRef "x" none)) none []) =
      "() => \x7b\n  let x = 1;\n  return x;\n\x7d" ∧
    renderVal "" (.functionE [] [.letE "x" (.prim (.num 1)) none] none none []) =
      "() => \x7b\n  let x = 1;\n\x7d" := by
  refine ⟨functionE_toBabel_none parse params ys retTy tps,
    fun r => functionE_toBabel_some parse params ys retTy tps r, ?_, ?_⟩
  · simp [renderVal, fnEntries, typeParamsStr, tyAnn, TAB]
    rfl
  · simp [renderVal, fnEntries, typeParamsStr, tyAnn, TAB]
    rfl

/-- C4: a declaration whose initializer is a host function value makes the
tree-serializer raise the unsupported-value error, while the
pretty-printer on the same node does not raise and falls back to the
generic stringification of the initializer (which displays as
"undefined"). -/
theorem c4_strictness_split (parse : String → Option (List BNode))
    (name : String) (t? : Option BaseType) :
    toBabelAST parse (.letE name (.prim .fnVal) t?) =
      .error "Unsupported value type: function" ∧
    renderVal "" (.letE name (.prim .fnVal) t?) =
      "let " ++ name ++ tyAnn t? ++ " = " ++ "undefined" ++ ";" ∧
    renderVal "" (.letE "f" (.prim .fnVal) none) = "let f = undefined;" := by
  refine ⟨?_, ?_, ?_⟩
  · simp [toBabelAST, primConvertLet, typeofPrim]
  · simp only [renderVal]; rfl
  · simp [renderVal]
    rfl

/-- C5: both backends keep the produced values of a sequence-construction
block in exactly production order — serialization and pretty-printing
distribute over concatenation of the trace (so no reordering, hoisting or
deduplication is possible), the statement-first collector used by
`CodeGenAST` does the same, and a redeclared name yields one identical
statement per yield. -/
theorem c5_production_order (parse : String → Option (List BNode))
    (ind : String) (es1 es2 : List Val) :
    (blockStmtsB parse (es1 ++ es2) = (do
      let a ← blockStmtsB parse es1
      let b ← blockStmtsB parse es2
      Except.ok (a ++ b))) ∧
    blockEntries ind (es1 ++ es2) = blockEntries ind es1 ++ blockEntries ind es2 ∧
    (stmtsStmtFirst parse (es1 ++ es2) = (do
      let a ← stmtsStmtFirst parse es1
      let b ← stmtsStmtFirst parse es2
      Except.ok (a ++ b))) ∧
    blockStmtsB parse [.letE "x" (.prim (.num 1)) none, .letE "x" (.prim (.num 1)) none] =
      .ok [.variableDeclaration "const" [("x", some (.numericLiteral 1))],
           .variableDeclaration "const" [("x", some (.numericLiteral 1))]] := by
  refine ⟨blockStmtsB_append parse es1 es2, blockEntries_append ind es1 es2,
    stmtsStmtFirst_append parse es1 es2, ?_⟩
  simp [blockStmtsB, toBabelAST, isExprNode, isExpression, isStatement,
    primConvertLet]

/-- C6 counterexample: with the external parser succeeding on the fragment
"\n" (a parsed program with no statements, as `@babel/parser` produces for
whitespace), the raw-node conversion still produces the opaque
string-literal fallback — so the fallback is not taken exactly when
parsing fails. -/
theorem c6_counterexample :
    toBabelAST (fun _ => some []) (.rawE "\n") =
      .ok (.expressionStatement (.stringLiteral "\n")) ∧
    (fun (_ : String) => (some [] : Option (List BNode))) "\n" ≠ none := by
  constructor
  · simp [toBabelAST]
  · simp

/-- C6 (amended): the raw-node conversion consults the external parser and
returns its first parsed statement; it falls back to the opaque
string-literal expression statement exactly when parsing fails or the
parse yields no top-level statement, and it never propagates a parse
failure (the conversion always succeeds).  Raw is the one node kind with
this behavior: a raw node contains a raw node, and serializing any
raw-free value does not consult the parser at all (the result is the same
under every parser oracle), so no other node kind's conversion has such a
parse-based fallback. -/
theorem c6_raw_recovery (parse : String → Option (List BNode)) (code : String) :
    (toBabelAST parse (.rawE code) =
      (match parse code with
       | some (s :: _) => .ok s
       | _ => .ok (.expressionStatement (.stringLiteral code)))) ∧
    (∃ n, toBabelAST parse (.rawE code) = .ok n) ∧
    containsRaw (.rawE code) = true ∧
    (∀ (q : String → Option (List BNode)) (v : Val),
      containsRaw v = false → toBabelAST parse v = toBabelAST q v) := by
  have h : toBabelAST parse (.rawE code) =
      (match parse code with
       | some (s :: _) => .ok s
       | _ => .ok (.expressionStatement (.stringLiteral code))) := by
    simp [toBabelAST]
  refine ⟨h, ?_, by simp [containsRaw], fun q v hv => toBabel_raw_free_oracle q parse v hv⟩
  rw [h]
  rcases hp : parse code with _ | l
  · exact ⟨_, rfl⟩
  · rcases l with _ | ⟨s, rest⟩
    · exact ⟨_, rfl⟩
    · exact ⟨_, rfl⟩

/-- C6 witness: the oracle-independence conjunct applied at a concrete
raw-free declaration and two concrete parser oracles, with the
`containsRaw` hypothesis discharged by evaluation. -/
theorem c6_raw_recovery_witness :
    containsRaw (Val.letE "a" (.prim (.num 10)) none) = false ∧
    toBabelAST (fun _ => none) (Val.letE "a" (.prim (.num 10)) none) =
      toBabelAST (fun _ => some []) (Val.letE "a" (.prim (.num 10)) none) := by
  refine ⟨?_, (c6_raw_recovery (fun _ => none) "x").2.2.2 (fun _ => some [])
    (Val.letE "a" (.prim (.num 10)) none) ?_⟩ <;>
  simp [containsRaw, containsRawOpt]

/-- The inner loop of the C7 nesting scenario: iterates "j" over "row" and
produces one console-log call. -/
def c7Inner : Val :=
  .forE none "j" (.prim (.str "row"))
    [.methodCallE (.prim (.str "console")) "log" [.varRef "j" none]] .forOf

/-- The outer loop of the C7 nesting scenario: iterates "i" over "rows"
and produces only the inner loop. -/
def c7Outer : Val :=
  .forE none "i" (.prim (.str "rows")) [c7Inner] .forOf

/-- C7: in a two-level nested iterate-over loop the pretty-printed text
indents the inner loop's single statement by two indent units relative to
the outer loop statement: the outer `for` line carries no indent, the
inner `for` line one unit, and the inner loop's statement two units. -/
theorem c7_nested_indentation :
    renderVal "" c7Outer =
      "for (const i of rows) \x7b\n  for (const j of row) \x7b\n    console.log(j)\n  \x7d\n\x7d" ∧
    renderVal "" c7Outer =
      "for (const i of rows) \x7b\n" ++
        TAB ++ "for (const j of row) \x7b\n" ++
        TAB ++ TAB ++ "console.log(j)" ++ "\n" ++
        TAB ++ "\x7d" ++ "\n" ++
        "\x7d" := by
  constructor <;>
    (simp [c7Outer, c7Inner, renderVal, loopEntries, renderCommaList, primString, TAB]
     rfl)

/-- C8: type rendering is purely structural — a generic with no arguments
renders as its bare name, `Promise<T>` composes from its pieces, union and
intersection render by joining the member renders with " | " and " & ",
and the one-property object type renders as "{ x: number }". -/
theorem c8_type_rendering (name : String) (ts : List BaseType) :
    BaseType.render (.generic name []) = name ∧
    BaseType.render (.generic "Promise" [.tvar "T"]) = "Promise<T>" ∧
    BaseType.render (.union ts) = String.intercalate " | " (ts.map BaseType.render) ∧
    BaseType.render (.intersection ts) = String.intercalate " & " (ts.map BaseType.render) ∧
    BaseType.render (.objectT [("x", .ofTy (.primitive "number"))]) = "\x7b x: number \x7d" := by
  refine ⟨rfl, rfl, ?_, ?_, rfl⟩
  · simp [BaseType.render, renderTyList_eq_map]
  · simp [BaseType.render, renderTyList_eq_map]

/-- C9: the tree-serialization of a declaration is always a variable
declaration of kind "const" with exactly one declarator, while the
pretty-printed text of the same node uses the `let` keyword — the two
backends always disagree on the declaration keyword. -/
theorem c9_const_vs_let (parse : String → Option (List BNode))
    (name : String) (v : Val) (t? : Option BaseType) :
    (toBabelAST parse (.letE name v t?) = (do
      let e ← letConvert parse v
      Except.ok (.variableDeclaration "const" [(name, some e)]))) ∧
    renderVal "" (.letE name v t?) =
      "let " ++ name ++ tyAnn t? ++ " = " ++ renderVal "" v ++ ";" ∧
    renderVal "" (.letE "x" (.prim (.num 1)) none) = "let x = 1;" ∧
    toBabelAST parse (.letE "x" (.prim (.num 1)) none) =
      .ok (.variableDeclaration "const" [("x", some (.numericLiteral 1))]) := by
  refine ⟨letE_toBabel parse name v t?, ?_, ?_, ?_⟩
  · simp only [renderVal]
  · simp [renderVal]
    rfl
  · simp [toBabelAST, letConvert, primConvertLet]

/-- C10: a non-node value produced inside a block is silently omitted by
the tree-serializer (no statement, no error), while the pretty-printer
renders it as one JSON-stringified line at the block's indentation. -/
theorem c10_non_node_values (parse : String → Option (List BNode))
    (ind : String) (pre post : List Val) (q : Prim) :
    blockStmtsB parse (pre ++ .prim q :: post) = blockStmtsB parse (pre ++ post) ∧
    blockEntries ind (pre ++ .prim q :: post) =
      blockEntries ind pre ++ (ind ++ TAB ++ jsonDisplay q ++ "\n") ++
        blockEntries ind post := by
  constructor
  · rw [blockStmtsB_append, blockStmtsB_append]
    simp [blockStmtsB, isExprNode]
  · rw [blockEntries_append]
    simp [blockEntries, String.append_assoc]
